import Mathlib

/-!
Verification development for the stock-dashboard application (src/main.py).

The embedding models the cache/refresh core of the program:
  - `StockData` mirrors the Python dataclass `StockData`; float prices are
    modelled by `ℚ`, `datetime` timestamps by `Int` (seconds).
  - `StockDataManager.get_stock_data` is `get_stock_data` below; the external
    market-data provider (`yf.Ticker(...).info` / `.history("2d")`) is an
    oracle `fetch : String → Option FetchRes`, where `none` stands for a
    transport error (any exception raised during the fetch) and a `FetchRes`
    with an empty bar list stands for an empty price history.
  - `PortfolioManager`'s methods become list-transforming functions on the
    explicit `portfolio` / `watchlist` state.
  - `update_market_data` threads the shared snapshot `current_data`
    (modelled as `String → Option StockData`) and the manager cache through
    a fold over the tracked symbols.
-/

set_option allowUnsafeReducibility true in
attribute [semireducible] Rat.add Rat.sub Rat.mul Rat.div Rat.inv

namespace StockDashboard

/-- Mirrors the Python dataclass `StockData` (src/main.py lines 70-81).
Field order follows the source; `last_updated` is an integer timestamp. -/
structure StockData where
  symbol : String
  name : String
  price : ℚ
  change : ℚ
  change_percent : ℚ
  volume : Int
  market_cap : Option ℚ
  pe_ratio : Option ℚ
  dividend_yield : Option ℚ
  last_updated : Int
  deriving DecidableEq

/-- The manager's `self.cache : Dict[str, StockData]`, as an association list;
`List.lookup` gives the dict lookup and consing a pair in front gives dict
assignment (the new binding shadows any older one, as in a dict overwrite). -/
abbrev Cache := List (String × StockData)

/-- The global `current_data` snapshot, symbol to latest known quote. -/
abbrev Snapshot := String → Option StockData

/-- One row of `ticker.history(period="2d")`: closing price and volume. -/
structure Bar where
  close : ℚ
  volume : Int
  deriving DecidableEq

/-- What one successful call to the provider returns: the `info` fields that
`get_stock_data` reads, plus the history rows in chronological order. -/
structure FetchRes where
  longName : Option String
  bars : List Bar
  market_cap : Option ℚ
  pe_ratio : Option ℚ
  dividend_yield : Option ℚ
  deriving DecidableEq

/-- Result of one `get_stock_data` call: the returned value, the cache after
the call, and whether an underlying provider fetch was attempted. -/
structure GetResult where
  data : Option StockData
  cache : Cache
  didFetch : Bool
  deriving DecidableEq

/-- Python's `str.upper()` on the ASCII symbols this program handles. This is
`String.toUpper` (map `Char.toUpper` over the characters), expressed over the
character list so that it evaluates by kernel reduction. -/
def upper (s : String) : String := ⟨s.data.map Char.toUpper⟩

/-- The manager's `self.cache_duration = timedelta(minutes=1)`, in seconds. -/
def cache_duration : Int := 60

/-- Mirrors `previous_price = hist['Close'].iloc[-2] if len(hist) > 1 else
current_price` (src/main.py line 108). -/
def previous_price (bars : List Bar) (current_price : ℚ) : ℚ :=
  if bars.length > 1 then ((bars.dropLast.getLast?).map Bar.close).getD current_price
  else current_price

/-- Mirrors src/main.py lines 104-122: returns `none` when the history is
empty, otherwise builds the `StockData` from the last two closes, with the
percent change guarded against a zero previous price. The symbol stored in
the quote is uppercased; `name` falls back to the raw symbol when the
provider has no `longName`. -/
def computeQuote (symbol : String) (now : Int) (fr : FetchRes) : Option StockData :=
  match fr.bars.getLast? with
  | none => none
  | some lastBar =>
    let current_price := lastBar.close
    let prev := previous_price fr.bars current_price
    let change := current_price - prev
    let change_percent := if prev ≠ 0 then change / prev * 100 else 0
    some ⟨upper symbol, fr.longName.getD symbol, current_price, change,
      change_percent, lastBar.volume, fr.market_cap, fr.pe_ratio,
      fr.dividend_yield, now⟩

/-- The fetch-fresh-data path of `get_stock_data` (src/main.py lines 99-129):
a transport error (`fetch symbol = none`, i.e. an exception, caught at line
127) or an empty history returns `none` and leaves the cache untouched; a
successful fetch stores the new quote in the cache under the raw `symbol`
key (line 124: `self.cache[symbol] = stock_data`). -/
def fetchAndStore (fetch : String → Option FetchRes) (now : Int) (cache : Cache)
    (symbol : String) : GetResult :=
  match fetch symbol with
  | none => ⟨none, cache, true⟩
  | some fr =>
    match computeQuote symbol now fr with
    | none => ⟨none, cache, true⟩
    | some stock_data => ⟨some stock_data, (symbol, stock_data) :: cache, true⟩

/-- Mirrors `StockDataManager.get_stock_data` (src/main.py lines 90-129):
the cache is consulted under the raw `symbol` key (line 94: `if symbol in
self.cache`); a fresh entry (age strictly below `cache_duration`) is
returned without fetching, otherwise the provider is queried. -/
def get_stock_data (fetch : String → Option FetchRes) (now : Int) (cache : Cache)
    (symbol : String) : GetResult :=
  match List.lookup symbol cache with
  | some cached_data =>
    if now - cached_data.last_updated < cache_duration then
      ⟨some cached_data, cache, false⟩
    else
      fetchAndStore fetch now cache symbol
  | none => fetchAndStore fetch now cache symbol

/-- One portfolio entry, mirroring the dict appended by `add_to_portfolio`
(src/main.py lines 152-157). -/
structure Holding where
  symbol : String
  shares : ℚ
  purchase_price : ℚ
  purchase_date : Int
  deriving DecidableEq

/-- The dict returned by `calculate_portfolio_value` (src/main.py 181-186). -/
structure PortfolioValue where
  total_value : ℚ
  total_cost : ℚ
  total_pnl : ℚ
  total_pnl_percent : ℚ
  deriving DecidableEq

/-- Mirrors `PortfolioManager.add_to_portfolio` (src/main.py lines 150-157):
unconditionally appends the holding, with the symbol uppercased; there is no
validation of `shares` or `purchase_price`. -/
def add_to_portfolio (portfolio : List Holding) (symbol : String) (shares : ℚ)
    (purchase_price : ℚ) (now : Int) : List Holding :=
  portfolio ++ [⟨upper symbol, shares, purchase_price, now⟩]

/-- Mirrors `PortfolioManager.add_to_watchlist` (src/main.py lines 159-163):
uppercases the symbol, appends it only when not already present. -/
def add_to_watchlist (watchlist : List String) (symbol : String) : List String :=
  let u := upper symbol
  if u ∉ watchlist then watchlist ++ [u] else watchlist

/-- Mirrors `PortfolioManager.remove_from_watchlist` (src/main.py lines
165-168): removes the symbol exactly as given, when present; no case
normalization is applied. -/
def remove_from_watchlist (watchlist : List String) (symbol : String) : List String :=
  if symbol ∈ watchlist then watchlist.erase symbol else watchlist

/-- Mirrors `PortfolioManager.calculate_portfolio_value` (src/main.py lines
170-186). The Python body initialises `total_value` and `total_cost` to 0
and the loop over the portfolio only creates asyncio tasks that are never
awaited or collected, so neither accumulator is ever modified before the
return statement; the dict is built from the untouched zeros. -/
def calculate_portfolio_value (portfolio : List Holding)
    (stock_data_manager : Cache) : PortfolioValue :=
  let total_value : ℚ := 0
  let total_cost : ℚ := 0
  ⟨total_value, total_cost, total_value - total_cost,
    if total_cost > 0 then (total_value - total_cost) / total_cost * 100 else 0⟩

/-- Follows the spec's words, not the source (section 4.4, `computeSummary`):
for each holding whose symbol has a quote in the snapshot, value accumulates
shares times current price and cost accumulates shares times purchase price;
holdings with no matching quote contribute to neither sum; the percent P&L
is 0 when the total cost is 0. Used to compare the documented contract with
`calculate_portfolio_value`. -/
def computeSummary_spec (portfolio : List Holding) (snapshot : Snapshot) : PortfolioValue :=
  let totals := portfolio.foldl (fun (acc : ℚ × ℚ) h =>
    match snapshot h.symbol with
    | some q => (acc.1 + h.shares * q.price, acc.2 + h.shares * h.purchase_price)
    | none => acc) (0, 0)
  ⟨totals.1, totals.2, totals.1 - totals.2,
    if totals.2 = 0 then 0 else (totals.1 - totals.2) / totals.2 * 100⟩

/-- The `MARKET_INDICES` table (src/main.py lines 193-198). -/
def MARKET_INDICES : List (String × String) :=
  [("^GSPC", "S&P 500"), ("^DJI", "Dow Jones"), ("^IXIC", "NASDAQ"), ("^VIX", "VIX")]

/-- The symbols `update_market_data` iterates, in order: the market indices
followed by the watchlist (src/main.py lines 212 and 218). -/
def trackedSymbols (watchlist : List String) : List String :=
  MARKET_INDICES.map Prod.fst ++ watchlist

/-- One iteration of the loops in `update_market_data` (src/main.py lines
212-221): fetch the symbol through the cache; only on success (`if data:`)
is the snapshot entry for that symbol overwritten. -/
def updateStep (fetch : String → Option FetchRes) (now : Int)
    (acc : Snapshot × Cache) (symbol : String) : Snapshot × Cache :=
  let r := get_stock_data fetch now acc.2 symbol
  match r.data with
  | some d => (fun x => if x = symbol then some d else acc.1 x, r.cache)
  | none => (acc.1, r.cache)

/-- Mirrors `update_market_data` (src/main.py lines 206-226): folds
`updateStep` over the tracked symbols, threading the shared snapshot
`current_data` and the manager cache. -/
def update_market_data (fetch : String → Option FetchRes) (now : Int)
    (cache : Cache) (watchlist : List String) (current_data : Snapshot) :
    Snapshot × Cache :=
  (trackedSymbols watchlist).foldl (updateStep fetch now) (current_data, cache)

/-- Staleness of every cached entry for `s` at time `now`: any quote the cache
holds under key `s` is at least `cache_duration` old (so a call for `s` cannot
be served from the cache). -/
def staleFor (now : Int) (cache : Cache) (s : String) : Prop :=
  ∀ q, List.lookup s cache = some q → cache_duration ≤ now - q.last_updated

/-! Concrete fixtures used by witnesses and counterexamples. -/

/-- A provider that always answers with a two-day history closing at 150
then 165, volume 1000, long name "Apple Inc.". -/
def fetch165 : String → Option FetchRes :=
  fun _ => some ⟨some "Apple Inc.", [⟨150, 900⟩, ⟨165, 1000⟩], none, none, none⟩

/-- A provider whose every call raises (transport failure). -/
def fetchNone : String → Option FetchRes := fun _ => none

/-- The quote that `fetch165` yields at time 0 for symbol "AAPL". -/
def quote165 : StockData :=
  ⟨"AAPL", "Apple Inc.", 165, 15, 10, 1000, none, none, none, 0⟩

/-- A cache holding `quote165` under key "AAPL" (stored at time 0). -/
def cacheAAPL : Cache := [("AAPL", quote165)]

/-- A snapshot in which only "AAPL" has a quote (price 165). -/
def snap165 : Snapshot := fun s => if s = "AAPL" then some quote165 else none

/-- A fetch result whose prior-session close is 0 (current close 165). -/
def frZeroPrior : FetchRes := ⟨none, [⟨0, 1⟩, ⟨165, 2⟩], none, none, none⟩

/-- The quote `computeQuote` builds from `frZeroPrior` at time 5 for "aapl". -/
def quoteZeroPrior : StockData :=
  ⟨"AAPL", "aapl", 165, 165, 0, 2, none, none, none, 5⟩

/-! Helper lemmas about the fetch path of `get_stock_data`. -/

lemma computeQuote_eq (s : String) (now : Int) (fr : FetchRes) :
    computeQuote s now fr = none ∨
    ∃ sd, computeQuote s now fr = some sd ∧ sd.last_updated = now := by
  unfold computeQuote
  rcases hl : fr.bars.getLast? with _ | lastBar <;> dsimp only
  · exact Or.inl rfl
  · exact Or.inr ⟨_, rfl, rfl⟩

lemma fetchAndStore_didFetch (fetch : String → Option FetchRes) (now : Int)
    (cache : Cache) (s : String) :
    (fetchAndStore fetch now cache s).didFetch = true := by
  unfold fetchAndStore
  split
  · rfl
  · split <;> rfl

lemma fetchAndStore_cases (fetch : String → Option FetchRes) (now : Int)
    (cache : Cache) (s : String) :
    ((fetchAndStore fetch now cache s).data = none ∧
      (fetchAndStore fetch now cache s).cache = cache) ∨
    ∃ q, (fetchAndStore fetch now cache s).data = some q ∧
      (fetchAndStore fetch now cache s).cache = (s, q) :: cache ∧
      q.last_updated = now := by
  unfold fetchAndStore
  rcases hf : fetch s with _ | fr <;> dsimp only
  · exact Or.inl ⟨rfl, rfl⟩
  · rcases computeQuote_eq s now fr with hq | ⟨sd, hq, hlu⟩ <;> rw [hq] <;> dsimp only
    · exact Or.inl ⟨rfl, rfl⟩
    · exact Or.inr ⟨sd, rfl, rfl, hlu⟩

lemma fetchAndStore_fail (fetch : String → Option FetchRes) (now : Int)
    (cache : Cache) (s : String)
    (hfail : fetch s = none ∨ ∃ fr, fetch s = some fr ∧ fr.bars = []) :
    fetchAndStore fetch now cache s = ⟨none, cache, true⟩ := by
  unfold fetchAndStore
  rcases hfail with hf | ⟨fr, hf, hb⟩ <;> rw [hf] <;> dsimp only
  have hq : computeQuote s now fr = none := by
    unfold computeQuote
    rw [hb]
    rfl
  rw [hq]

lemma get_spec (fetch : String → Option FetchRes) (now : Int) (cache : Cache)
    (s : String) :
    (∃ cd, List.lookup s cache = some cd ∧ now - cd.last_updated < cache_duration ∧
      get_stock_data fetch now cache s = ⟨some cd, cache, false⟩) ∨
    get_stock_data fetch now cache s = fetchAndStore fetch now cache s := by
  unfold get_stock_data
  rcases hl : List.lookup s cache with _ | cd <;> dsimp only
  · exact Or.inr rfl
  · by_cases hfr : now - cd.last_updated < cache_duration
    · exact Or.inl ⟨cd, rfl, hfr, by rw [if_pos hfr]⟩
    · exact Or.inr (by rw [if_neg hfr])

lemma get_success (fetch : String → Option FetchRes) (now : Int) (cache : Cache)
    (s : String) (q : StockData)
    (hd : (get_stock_data fetch now cache s).didFetch = true)
    (hq : (get_stock_data fetch now cache s).data = some q) :
    (get_stock_data fetch now cache s).cache = (s, q) :: cache ∧
    q.last_updated = now := by
  rcases get_spec fetch now cache s with ⟨cd, _, _, heq⟩ | heq
  · rw [heq] at hd
    exact Bool.noConfusion hd
  · rw [heq] at hq ⊢
    rcases fetchAndStore_cases fetch now cache s with ⟨hn, _⟩ | ⟨q2, hq2, hc2, hl2⟩
    · rw [hn] at hq
      exact Option.noConfusion hq
    · rw [hq2] at hq
      obtain rfl := Option.some.inj hq
      exact ⟨hc2, hl2⟩

lemma lookup_cons_self {β : Type} (k : String) (v : β) (c : List (String × β)) :
    List.lookup k ((k, v) :: c) = some v := by
  simp [List.lookup]

lemma lookup_cons_ne {β : Type} (s k : String) (v : β) (c : List (String × β))
    (h : s ≠ k) : List.lookup s ((k, v) :: c) = List.lookup s c := by
  simp [List.lookup, beq_eq_false_iff_ne.mpr h]

lemma get_cache_shape (fetch : String → Option FetchRes) (now : Int)
    (cache : Cache) (s : String) :
    (get_stock_data fetch now cache s).cache = cache ∨
    ∃ q, (get_stock_data fetch now cache s).cache = (s, q) :: cache := by
  rcases get_spec fetch now cache s with ⟨cd, _, _, heq⟩ | heq
  · exact Or.inl (by rw [heq])
  · rcases fetchAndStore_cases fetch now cache s with ⟨_, hc⟩ | ⟨q, _, hc, _⟩
    · exact Or.inl (by rw [heq, hc])
    · exact Or.inr ⟨q, by rw [heq, hc]⟩

lemma get_fail_of_stale (fetch : String → Option FetchRes) (now : Int)
    (cache : Cache) (s : String) (hf : fetch s = none)
    (hst : staleFor now cache s) :
    get_stock_data fetch now cache s = ⟨none, cache, true⟩ := by
  rcases get_spec fetch now cache s with ⟨cd, hl, hfr, _⟩ | heq
  · exact absurd hfr (not_lt.mpr (hst cd hl))
  · rw [heq]
    exact fetchAndStore_fail fetch now cache s (Or.inl hf)

/-! Helper lemmas about `updateStep` and the `update_market_data` fold. -/

lemma updateStep_frame (fetch : String → Option FetchRes) (now : Int)
    (acc : Snapshot × Cache) (symbol x : String) (hx : x ≠ symbol) :
    (updateStep fetch now acc symbol).1 x = acc.1 x := by
  unfold updateStep
  dsimp only
  rcases hd : (get_stock_data fetch now acc.2 symbol).data with _ | d <;> dsimp only
  exact if_neg hx

lemma updateStep_cases (fetch : String → Option FetchRes) (now : Int)
    (acc : Snapshot × Cache) (symbol x : String) :
    (updateStep fetch now acc symbol).1 x = acc.1 x ∨
    ∃ d, (updateStep fetch now acc symbol).1 x = some d := by
  rcases eq_or_ne x symbol with rfl | hx
  · unfold updateStep
    dsimp only
    rcases hd : (get_stock_data fetch now acc.2 x).data with _ | d <;> dsimp only
    · exact Or.inl rfl
    · exact Or.inr ⟨d, if_pos rfl⟩
  · exact Or.inl (updateStep_frame fetch now acc symbol x hx)

lemma updateStep_cache (fetch : String → Option FetchRes) (now : Int)
    (acc : Snapshot × Cache) (symbol : String) :
    (updateStep fetch now acc symbol).2 =
      (get_stock_data fetch now acc.2 symbol).cache := by
  unfold updateStep
  dsimp only
  rcases hd : (get_stock_data fetch now acc.2 symbol).data with _ | d <;> dsimp only

lemma updateStep_stale (fetch : String → Option FetchRes) (now : Int)
    (acc : Snapshot × Cache) (s sym : String) (hf : fetch s = none)
    (hst : staleFor now acc.2 s) :
    (updateStep fetch now acc sym).1 s = acc.1 s ∧
    staleFor now (updateStep fetch now acc sym).2 s := by
  rcases eq_or_ne sym s with rfl | hne
  · have hg := get_fail_of_stale fetch now acc.2 sym hf hst
    constructor
    · unfold updateStep
      dsimp only
      rw [hg]
    · intro q hq
      rw [updateStep_cache fetch now acc sym, hg] at hq
      exact hst q hq
  · constructor
    · exact updateStep_frame fetch now acc sym s (Ne.symm hne)
    · intro q hq
      rw [updateStep_cache fetch now acc sym] at hq
      rcases get_cache_shape fetch now acc.2 sym with hc | ⟨q2, hc⟩
      · rw [hc] at hq
        exact hst q hq
      · rw [hc, lookup_cons_ne s sym q2 acc.2 (Ne.symm hne)] at hq
        exact hst q hq

lemma foldl_frame (fetch : String → Option FetchRes) (now : Int) :
    ∀ (syms : List String) (acc : Snapshot × Cache) (x : String), x ∉ syms →
      (syms.foldl (updateStep fetch now) acc).1 x = acc.1 x := by
  intro syms
  induction syms with
  | nil =>
    intro acc x _
    rfl
  | cons s rest ih =>
    intro acc x hx
    rw [List.foldl_cons, ih _ x (fun h => hx (List.mem_cons_of_mem _ h)),
      updateStep_frame fetch now acc s x
        (fun h => hx (by rw [h]; exact List.mem_cons_self s rest))]

lemma foldl_pres (fetch : String → Option FetchRes) (now : Int) :
    ∀ (syms : List String) (acc : Snapshot × Cache) (x : String),
      (syms.foldl (updateStep fetch now) acc).1 x = acc.1 x ∨
      ∃ d, (syms.foldl (updateStep fetch now) acc).1 x = some d := by
  intro syms
  induction syms with
  | nil =>
    intro acc x
    exact Or.inl rfl
  | cons s rest ih =>
    intro acc x
    rw [List.foldl_cons]
    rcases ih (updateStep fetch now acc s) x with h | ⟨d, hd⟩
    · rcases updateStep_cases fetch now acc s x with h2 | ⟨d, hd2⟩
      · exact Or.inl (by rw [h, h2])
      · exact Or.inr ⟨d, by rw [h, hd2]⟩
    · exact Or.inr ⟨d, hd⟩

lemma foldl_stale_skip (fetch : String → Option FetchRes) (now : Int)
    (s : String) (hf : fetch s = none) :
    ∀ (syms : List String) (acc : Snapshot × Cache), staleFor now acc.2 s →
      (syms.foldl (updateStep fetch now) acc).1 s = acc.1 s := by
  intro syms
  induction syms with
  | nil =>
    intro acc _
    rfl
  | cons sym rest ih =>
    intro acc hst
    obtain ⟨h1, h2⟩ := updateStep_stale fetch now acc s sym hf hst
    rw [List.foldl_cons, ih _ h2, h1]

/-- C1: the documented portfolio-valuation contract says a holding of 10
shares bought at 150 with a current quote of 165 yields totalValue 1650,
totalCost 1500, pnl 150, pnlPercent 10 (as `computeSummary_spec` indeed
computes on that input), but `calculate_portfolio_value` as implemented
returns all zeros on that same portfolio because the per-holding fetch
tasks are never awaited or collected. -/
theorem C1_calculate_portfolio_value_contradicts_contract :
    calculate_portfolio_value [⟨"AAPL", 10, 150, 0⟩] cacheAAPL = ⟨0, 0, 0, 0⟩ ∧
    computeSummary_spec [⟨"AAPL", 10, 150, 0⟩] snap165 = ⟨1650, 1500, 150, 10⟩ :=
  ⟨by decide, by decide⟩

/-- C2: for every portfolio and every manager cache state,
`calculate_portfolio_value` returns total value 0, total cost 0, P&L 0 and
P&L percent 0, since the loop never adds to the accumulators. -/
theorem C2_calculate_portfolio_value_always_zero (portfolio : List Holding)
    (stock_data_manager : Cache) :
    calculate_portfolio_value portfolio stock_data_manager = ⟨0, 0, 0, 0⟩ := by
  rfl

/-- C3: if `get_stock_data` performs a successful underlying fetch for `s`
at time `t` (storing quote `q`), then a second call at time `t2` within the
TTL window (`t2 - t < cache_duration`) returns the cached quote `q` with no
underlying fetch, and a second call at `t2` with `t2 - t ≥ cache_duration`
performs a new underlying fetch. -/
theorem C3_ttl_cache_behavior (fetch fetch2 : String → Option FetchRes)
    (t t2 : Int) (cache : Cache) (s : String) (q : StockData)
    (hd : (get_stock_data fetch t cache s).didFetch = true)
    (hq : (get_stock_data fetch t cache s).data = some q) :
    (t2 - t < cache_duration →
      get_stock_data fetch2 t2 (get_stock_data fetch t cache s).cache s =
        ⟨some q, (get_stock_data fetch t cache s).cache, false⟩) ∧
    (cache_duration ≤ t2 - t →
      (get_stock_data fetch2 t2 (get_stock_data fetch t cache s).cache s).didFetch
        = true) := by
  obtain ⟨hc, hlu⟩ := get_success fetch t cache s q hd hq
  rw [hc]
  constructor
  · intro hlt
    unfold get_stock_data
    rw [lookup_cons_self s q cache]
    dsimp only
    rw [hlu, if_pos hlt]
  · intro hge
    unfold get_stock_data
    rw [lookup_cons_self s q cache]
    dsimp only
    rw [hlu, if_neg (not_lt.mpr hge)]
    exact fetchAndStore_didFetch fetch2 t2 ((s, q) :: cache) s

/-- C3 witness: a fetch at t=0 stores the quote; the call at t=30 returns it
without fetching; the call at t=61 fetches again. -/
theorem C3_witness :
    get_stock_data fetch165 30 (get_stock_data fetch165 0 [] "AAPL").cache "AAPL" =
      ⟨some quote165, (get_stock_data fetch165 0 [] "AAPL").cache, false⟩ ∧
    (get_stock_data fetchNone 61 (get_stock_data fetch165 0 [] "AAPL").cache
      "AAPL").didFetch = true :=
  ⟨(C3_ttl_cache_behavior fetch165 fetch165 0 30 [] "AAPL" quote165 (by decide)
      (by decide)).1 (by decide),
   (C3_ttl_cache_behavior fetch165 fetchNone 0 61 [] "AAPL" quote165 (by decide)
      (by decide)).2 (by decide)⟩

/-- C4: when the underlying fetch for `s` fails (transport error or empty
history) and the call actually reaches the fetch path, `get_stock_data`
returns `none` and the cache is left exactly as it was: no entry is added,
removed or changed, so any prior cached quote for `s` is intact. -/
theorem C4_failed_fetch_leaves_cache_unchanged (fetch : String → Option FetchRes)
    (now : Int) (cache : Cache) (s : String)
    (hfail : fetch s = none ∨ ∃ fr, fetch s = some fr ∧ fr.bars = [])
    (hd : (get_stock_data fetch now cache s).didFetch = true) :
    (get_stock_data fetch now cache s).data = none ∧
    (get_stock_data fetch now cache s).cache = cache := by
  rcases get_spec fetch now cache s with ⟨cd, _, _, heq⟩ | heq
  · rw [heq] at hd
    exact Bool.noConfusion hd
  · rw [heq, fetchAndStore_fail fetch now cache s hfail]
    exact ⟨rfl, rfl⟩

/-- C4 witness: a transport failure at t=100 against a cache holding a stale
"AAPL" quote returns `none` and leaves the cache unchanged. -/
theorem C4_witness :
    (get_stock_data fetchNone 100 cacheAAPL "AAPL").data = none ∧
    (get_stock_data fetchNone 100 cacheAAPL "AAPL").cache = cacheAAPL :=
  C4_failed_fetch_leaves_cache_unchanged fetchNone 100 cacheAAPL "AAPL"
    (Or.inl rfl) (by decide)

/-- C5 counterexample: with a fresh quote cached under "AAPL" (stored at
t=0, queried at t=10, well inside the TTL), a call for "aapl" does not read
that entry: it attempts its own underlying fetch (and with a failing
provider returns `none`, not the cached quote), while the same call for
"AAPL" is served from the cache with no fetch. This refutes the claim that
the symbol is uppercased before cache lookup and storage. -/
theorem C5_counterexample_case_sensitive_cache :
    (get_stock_data fetchNone 10 cacheAAPL "aapl").didFetch = true ∧
    (get_stock_data fetchNone 10 cacheAAPL "aapl").data = none ∧
    (get_stock_data fetch165 10 cacheAAPL "AAPL").didFetch = false :=
  ⟨by decide, by decide, by decide⟩

/-- C5 amended: `get_stock_data` keys the cache by the raw symbol string
(only the `symbol` field inside the built quote is uppercased), so an entry
freshly stored under one spelling `s` is not consulted by a call with any
other spelling `s2`: if the cache has no entry keyed exactly `s2`, the call
for `s2` performs its own underlying fetch. -/
theorem C5_amended_raw_symbol_cache_key (fetch fetch2 : String → Option FetchRes)
    (t t2 : Int) (cache : Cache) (s s2 : String) (q : StockData)
    (hne : s2 ≠ s) (hmiss : List.lookup s2 cache = none)
    (hd : (get_stock_data fetch t cache s).didFetch = true)
    (hq : (get_stock_data fetch t cache s).data = some q) :
    (get_stock_data fetch2 t2 (get_stock_data fetch t cache s).cache s2).didFetch
      = true := by
  obtain ⟨hc, _⟩ := get_success fetch t cache s q hd hq
  rw [hc]
  unfold get_stock_data
  rw [lookup_cons_ne s2 s q cache hne, hmiss]
  exact fetchAndStore_didFetch fetch2 t2 ((s, q) :: cache) s2

/-- C5 amended witness: after storing "AAPL" at t=0, the call for "aapl" at
t=10 fetches for itself instead of using the fresh "AAPL" entry. -/
theorem C5_amended_witness :
    (get_stock_data fetchNone 10 (get_stock_data fetch165 0 [] "AAPL").cache
      "aapl").didFetch = true :=
  C5_amended_raw_symbol_cache_key fetch165 fetchNone 0 10 [] "AAPL" "aapl"
    quote165 (by decide) rfl (by decide) (by decide)

/-- C6 counterexample: `add_to_portfolio` with shares = -5 and price = 0
(neither a positive number) is not rejected: the holding is appended and the
portfolio changes, refuting the claim that invalid inputs leave the
portfolio unchanged. -/
theorem C6_counterexample_no_validation :
    add_to_portfolio [] "AAPL" (-5) 0 7 = [⟨"AAPL", -5, 0, 7⟩] ∧
    add_to_portfolio [] "AAPL" (-5) 0 7 ≠ [] :=
  ⟨by decide, by decide⟩

/-- C6 amended: `add_to_portfolio` performs no validation at all: for every
symbol, share count, purchase price (positive or not) and timestamp, it
appends exactly one holding, carrying the uppercased symbol and the given
values unchanged. -/
theorem C6_amended_unconditional_append (portfolio : List Holding)
    (symbol : String) (shares purchase_price : ℚ) (now : Int) :
    add_to_portfolio portfolio symbol shares purchase_price now =
      portfolio ++ [⟨upper symbol, shares, purchase_price, now⟩] :=
  rfl

/-- C7: whenever `computeQuote` builds a quote from a fetched history whose
prior-session close (`previous_price`, i.e. the second-to-last close when
there are at least two bars, else the current close) is 0, the quote's
percent change is 0, whatever the current close is: the division by the
prior close is guarded. -/
theorem C7_zero_prior_close_percent_zero (s : String) (now : Int)
    (fr : FetchRes) (lastBar : Bar) (q : StockData)
    (hl : fr.bars.getLast? = some lastBar)
    (hz : previous_price fr.bars lastBar.close = 0)
    (hq : computeQuote s now fr = some q) :
    q.change_percent = 0 := by
  unfold computeQuote at hq
  rw [hl] at hq
  dsimp only at hq
  rw [hz, if_neg (fun h => h rfl)] at hq
  obtain rfl := Option.some.inj hq
  rfl

/-- C7 witness: a history closing at 0 then 165 yields a quote with percent
change 0. -/
theorem C7_witness : quoteZeroPrior.change_percent = 0 :=
  C7_zero_prior_close_percent_zero "aapl" 5 frZeroPrior ⟨165, 2⟩ quoteZeroPrior
    (by decide) (by decide) (by decide)

/-- C8: watchlist operations are idempotent no-ops at the fixed point:
adding a symbol whose uppercased form is already present leaves the list
unchanged, adding the same symbol twice equals adding it once, removing an
absent symbol leaves the list unchanged (no error), and adding "AAPL" twice
to any list that held at most one "AAPL" yields exactly one "AAPL". -/
theorem C8_watchlist_idempotent (w : List String) (s : String) :
    (upper s ∈ w → add_to_watchlist w s = w) ∧
    add_to_watchlist (add_to_watchlist w s) s = add_to_watchlist w s ∧
    (s ∉ w → remove_from_watchlist w s = w) ∧
    (w.count "AAPL" ≤ 1 →
      (add_to_watchlist (add_to_watchlist w "AAPL") "AAPL").count "AAPL" = 1) := by
  have hadd : ∀ (v : List String) (x : String), upper x ∈ v →
      add_to_watchlist v x = v := by
    intro v x hx
    unfold add_to_watchlist
    dsimp only
    rw [if_neg (not_not_intro hx)]
  have hu : upper "AAPL" = "AAPL" := by decide
  refine ⟨hadd w s, ?_, ?_, ?_⟩
  · by_cases h : upper s ∈ w
    · rw [hadd w s h, hadd w s h]
    · have h1 : add_to_watchlist w s = w ++ [upper s] := by
        unfold add_to_watchlist
        dsimp only
        rw [if_pos h]
      rw [h1]
      exact hadd _ s (by simp)
  · intro h
    unfold remove_from_watchlist
    rw [if_neg h]
  · intro hc
    by_cases h : "AAPL" ∈ w
    · have h1 : add_to_watchlist w "AAPL" = w := hadd w "AAPL" (by rw [hu]; exact h)
      rw [h1, h1]
      exact Nat.le_antisymm hc (List.count_pos_iff.mpr h)
    · have h0 : w.count "AAPL" = 0 := List.count_eq_zero.mpr h
      have h1 : add_to_watchlist w "AAPL" = w ++ ["AAPL"] := by
        unfold add_to_watchlist
        dsimp only
        rw [hu, if_pos h]
      have h2 : add_to_watchlist (w ++ ["AAPL"]) "AAPL" = w ++ ["AAPL"] :=
        hadd _ "AAPL" (by rw [hu]; simp)
      rw [h1, h2, List.count_append, h0]
      rfl

/-- C8 witness: adding "AAPL" to a list already holding it is a no-op,
removing "MSFT" from an empty list is a no-op, and adding "AAPL" twice to
the empty list yields exactly one "AAPL". -/
theorem C8_witness :
    add_to_watchlist ["AAPL"] "AAPL" = ["AAPL"] ∧
    remove_from_watchlist [] "MSFT" = ([] : List String) ∧
    (add_to_watchlist (add_to_watchlist [] "AAPL") "AAPL").count "AAPL" = 1 :=
  ⟨(C8_watchlist_idempotent ["AAPL"] "AAPL").1 (by decide),
   (C8_watchlist_idempotent [] "MSFT").2.2.1 (by decide),
   (C8_watchlist_idempotent [] "AAPL").2.2.2 (by decide)⟩

/-- C9: one run of `update_market_data` updates the shared snapshot
incrementally per symbol: entries for symbols outside the tracked list are
untouched; every entry either keeps its previous value or is overwritten by
a successfully fetched quote (never blanked); and a tracked symbol whose
fetch fails (failing provider, no fresh cache entry to fall back on) keeps
its previous snapshot entry unchanged. -/
theorem C9_snapshot_incremental_update (fetch : String → Option FetchRes)
    (now : Int) (cache : Cache) (watchlist : List String)
    (current_data : Snapshot) :
    (∀ s, s ∉ trackedSymbols watchlist →
      (update_market_data fetch now cache watchlist current_data).1 s =
        current_data s) ∧
    (∀ s, (update_market_data fetch now cache watchlist current_data).1 s =
        current_data s ∨
      ∃ d, (update_market_data fetch now cache watchlist current_data).1 s =
        some d) ∧
    (∀ s, fetch s = none → staleFor now cache s →
      (update_market_data fetch now cache watchlist current_data).1 s =
        current_data s) := by
  refine ⟨fun s hs => ?_, fun s => ?_, fun s hf hst => ?_⟩
  · exact foldl_frame fetch now (trackedSymbols watchlist) (current_data, cache) s hs
  · exact foldl_pres fetch now (trackedSymbols watchlist) (current_data, cache) s
  · exact foldl_stale_skip fetch now s hf (trackedSymbols watchlist)
      (current_data, cache) hst

/-- C9 witness: with a failing provider and an empty cache, a run over the
indices plus watchlist ["AAPL"] keeps the previous "AAPL" snapshot entry,
and an untracked symbol's entry is untouched. -/
theorem C9_witness :
    (update_market_data fetchNone 0 [] ["AAPL"] snap165).1 "AAPL" =
      snap165 "AAPL" ∧
    (update_market_data fetchNone 0 [] ["AAPL"] snap165).1 "ZZZZ" =
      snap165 "ZZZZ" :=
  ⟨(C9_snapshot_incremental_update fetchNone 0 [] ["AAPL"] snap165).2.2 "AAPL"
      rfl (fun q hq => Option.noConfusion hq),
   (C9_snapshot_incremental_update fetchNone 0 [] ["AAPL"] snap165).1 "ZZZZ"
      (by decide)⟩

/-- C10: `add_to_watchlist` stores symbols uppercased but
`remove_from_watchlist` matches the raw string: on a canonically-uppercase
watchlist containing `upper s`, a removal request with any spelling `s`
different from its uppercase form is a no-op and the symbol stays in the
watchlist. -/
theorem C10_remove_is_case_sensitive (w : List String) (s : String)
    (hcanon : ∀ x ∈ w, upper x = x) (hmem : upper s ∈ w)
    (hne : s ≠ upper s) :
    remove_from_watchlist w s = w ∧ upper s ∈ remove_from_watchlist w s := by
  have hnot : s ∉ w := fun hs => hne (hcanon s hs).symm
  have h1 : remove_from_watchlist w s = w := by
    unfold remove_from_watchlist
    rw [if_neg hnot]
  refine ⟨h1, ?_⟩
  rw [h1]
  exact hmem

/-- C10 witness: removing "aapl" from the watchlist ["AAPL"] is a no-op and
"AAPL" remains. -/
theorem C10_witness :
    remove_from_watchlist ["AAPL"] "aapl" = ["AAPL"] ∧
    upper "aapl" ∈ remove_from_watchlist ["AAPL"] "aapl" :=
  C10_remove_is_case_sensitive ["AAPL"] "aapl" (by decide) (by decide) (by decide)

end StockDashboard
